import Mathlib

/-!
# Verification of the CS354_Rust micro-benchmark harness

Shallow embedding of the task representation, arithmetic helpers, task
generator, sequential runner, concurrent dispatcher and benchmark
comparator of the repository (src/helpers.rs, src/task.rs, src/main.rs),
together with proofs of the spec's testable properties.

Machine integers (`u64`, `u32`, `i32` in the source) are modelled as
`Nat`/`Int`; where unsigned overflow can occur and matters (the `u64`
additions in `fib` and the `u64` multiplications in `factorial` and
`mod_exp`) the wrap-around is made explicit with `% 2 ^ 64`.
-/

/-- Width of the Rust `u64` type: `u64` arithmetic wraps modulo this. -/
def U64 : Nat := 2 ^ 64

namespace Helpers

/-- src/helpers.rs `fib(n, p, c)`: tail-recursive Fibonacci accumulator.
`n` is a `u64`, so `n <= 0` is `n == 0`; `p + c` is a `u64` addition and
wraps modulo `2 ^ 64`. -/
def fib : Nat → Nat → Nat → Nat
  | 0, _, c => c
  | n + 1, p, c => fib n c ((p + c) % U64)

/-- src/helpers.rs `fibonacci(n)`: `0` when `n <= 0`, otherwise `fib(n, 0, 1)`. -/
def fibonacci (n : Nat) : Nat :=
  if n = 0 then 0 else fib n 0 1

/-- src/helpers.rs `factorial(n)`: `1` for `n == 0`, otherwise the product
of `1..=n` computed iteratively; each `u64` multiplication wraps modulo
`2 ^ 64`. -/
def factorial (n : Nat) : Nat :=
  if n = 0 then 1
  else (List.range' 1 n).foldl (fun acc i => acc * i % U64) 1

/-- src/helpers.rs `compute(a, b)`: generic addition, instantiated at `i32`. -/
def compute (a b : Int) : Int := a + b

/-- src/helpers.rs `divide(a, b)`: generic division, instantiated at `i32`
(truncated division; only called with a non-zero divisor). -/
def divide (a b : Int) : Int := Int.tdiv a b

/-- src/helpers.rs `multiply(a, b)`: generic multiplication, instantiated at `i32`. -/
def multiply (a b : Int) : Int := a * b

/-- src/helpers.rs `prime_check(n)`: `false` for `n < 2`, otherwise scans
`i` over `2..((n/2)+1)` and returns `false` on the first `i` with
`i * (n / i) == n` (the early `return` is equivalent to the `all` over the
same range). `i * (n / i) <= n` so the `u32` arithmetic cannot overflow. -/
def prime_check (n : Nat) : Bool :=
  if n < 2 then false
  else (List.range' 2 (n / 2 + 1 - 2)).all fun i => !(i * (n / i) == n)

/-- src/helpers.rs `mod_exp` main loop: `while exp > 0` with the odd-bit
multiply, halving of `exp`, and squaring of `base`; both `u64`
multiplications wrap modulo `2 ^ 64` before the `% modulus`. -/
def mod_exp_loop (modulus exp base result : Nat) : Nat :=
  if h : exp = 0 then result
  else
    mod_exp_loop modulus (exp / 2) (base * base % U64 % modulus)
      (if exp % 2 = 1 then result * base % U64 % modulus else result)
termination_by exp
decreasing_by
  exact Nat.div_lt_self (Nat.pos_of_ne_zero h) (by decide)

/-- src/helpers.rs `mod_exp(base, exp, modulus)`: returns `0` when
`modulus == 1`, otherwise reduces `base` and runs the square-and-multiply
loop with `result = 1`.  (`modulus == 0` would panic in Rust at
`base %= modulus`; every caller guards `modulus != 0` first.) -/
def mod_exp (base exp modulus : Nat) : Nat :=
  if modulus = 1 then 0
  else mod_exp_loop modulus exp (base % modulus) 1

end Helpers

/-- src/task.rs `TaskType`: the closed set of task variants.  `i32` fields
become `Int`, `u32` and `u64` fields become `Nat`. -/
inductive TaskType where
  | Compute (a b : Int)
  | Fibonacci (n : Nat)
  | Divide (numerator denominator : Int)
  | Multiply (a b : Int)
  | Factorial (n : Nat)
  | PrimeCheck (n : Nat)
  | ModuloExponentiation (base exponent modulus : Nat)
  deriving DecidableEq, Repr

/-- src/task.rs `impl Task for TaskType`, `fn run`: dispatches on the
variant, computes the result via the helper (the computed value is only
printed, so it is bound and discarded here), and returns `Ok(())` except
for `Divide` with a zero denominator and `ModuloExponentiation` with a
zero modulus. -/
def TaskType.run : TaskType → Except String Unit
  | .Compute a b =>
      let _result := Helpers.compute a b
      .ok ()
  | .Fibonacci n =>
      let _result := Helpers.fibonacci n
      .ok ()
  | .Divide numerator denominator =>
      if denominator = 0 then .error "Division by zero."
      else
        let _result := Helpers.divide numerator denominator
        .ok ()
  | .Multiply a b =>
      let _result := Helpers.multiply a b
      .ok ()
  | .Factorial n =>
      let _result := Helpers.factorial n
      .ok ()
  | .PrimeCheck n =>
      let _result := Helpers.prime_check n
      .ok ()
  | .ModuloExponentiation base exponent modulus =>
      if modulus = 0 then .error "Modulus cannot be zero."
      else
        let _result := Helpers.mod_exp base exponent modulus
        .ok ()

/-- Model of `rand::rngs::StdRng` (an external crate, not part of this
repository).  The spec only requires a seeded deterministic pseudo-random
source, so the generator state is a single 64-bit word stepped by a fixed
linear-congruential recurrence; what the proofs rely on is exactly the
documented contract of `rand`: the step is a pure function of the state,
and `gen_range lo hi` yields a value in `[lo, hi)`. -/
structure StdRng where
  state : Nat
  deriving DecidableEq, Repr

/-- Model of `StdRng::seed_from_u64`: deterministic initial state from the seed. -/
def StdRng.seed_from_u64 (seed : Nat) : StdRng :=
  ⟨seed % U64⟩

/-- Model of drawing one 64-bit word: a fixed LCG step of the state.
(Marked irreducible so that goals never try to evaluate the step on a
symbolic state; proofs about concrete seeds unfold it explicitly.) -/
@[irreducible]
def StdRng.next_u64 (r : StdRng) : Nat × StdRng :=
  let s := (6364136223846793005 * r.state + 1442695040888963407) % U64
  (s, ⟨s⟩)

/-- Model of `Rng::gen_range(lo..hi)`: a value in `[lo, hi)` (for `lo < hi`,
the only way the source calls it), plus the advanced generator. -/
def StdRng.gen_range (r : StdRng) (lo hi : Nat) : Nat × StdRng :=
  let (x, r') := r.next_u64
  (lo + x % (hi - lo), r')

/-- src/main.rs `generate_tasks` loop body, the `match task_type` part:
one arm per variant selector, each drawing its operands and threading the
generator state.  The `i32` operands are non-negative by their ranges, so
the `Nat` draws are cast into `Int` fields.  The last arm is
`unreachable!()` in the source; the selector is drawn from `0..7`, so the
arm never runs (its value here is arbitrary). -/
def gen_task_sel (sel : Nat) (rng : StdRng) : TaskType × StdRng :=
  if sel = 0 then
    let a := rng.gen_range 1 100
    let b := a.2.gen_range 1 100
    (.Compute (a.1 : Int) (b.1 : Int), b.2)
  else if sel = 1 then
    let n := rng.gen_range 1 30
    (.Fibonacci n.1, n.2)
  else if sel = 2 then
    let numerator := rng.gen_range 1 100
    let denominator := numerator.2.gen_range 1 99
    (.Divide (numerator.1 : Int) ((denominator.1 : Int) + 1), denominator.2)
  else if sel = 3 then
    let a := rng.gen_range 1 100
    let b := a.2.gen_range 1 100
    (.Multiply (a.1 : Int) (b.1 : Int), b.2)
  else if sel = 4 then
    let n := rng.gen_range 0 20
    (.Factorial n.1, n.2)
  else if sel = 5 then
    let n := rng.gen_range 1 100
    (.PrimeCheck n.1, n.2)
  else if sel = 6 then
    let base := rng.gen_range 2 20
    let exponent := base.2.gen_range 2 10
    let modulus := exponent.2.gen_range 1 50
    (.ModuloExponentiation base.1 exponent.1 (modulus.1 + 1), modulus.2)
  else (.Compute 0 0, rng)

/-- src/main.rs `generate_tasks` loop body: draw a variant selector from
`0..7` (`rng.gen_range(0..7)`), then dispatch to the matching arm with
the advanced generator state. -/
def gen_task (rng0 : StdRng) : TaskType × StdRng :=
  gen_task_sel (rng0.gen_range 0 7).1 (rng0.gen_range 0 7).2

/-- src/main.rs `generate_tasks` `for` loop: `batch_size` iterations, each
pushing one generated task, threading the generator state. -/
def generate_tasks_from : Nat → StdRng → List TaskType
  | 0, _ => []
  | n + 1, rng => (gen_task rng).1 :: generate_tasks_from n (gen_task rng).2

/-- src/main.rs `generate_tasks(batch_size)`: the seed is fixed to `42` in
the source. -/
def generate_tasks (batch_size : Nat) : List TaskType :=
  generate_tasks_from batch_size (StdRng.seed_from_u64 42)

/-- The spec's `generate(batch_size, seed)` contract: `generate_tasks`
with the hard-coded seed `42` generalised to a parameter (the source seeds
`StdRng::seed_from_u64(42)` at the same place). -/
def generate (batch_size seed : Nat) : List TaskType :=
  generate_tasks_from batch_size (StdRng.seed_from_u64 seed)

/-- src/main.rs `execute_serially`: runs every task of the batch in order;
a failing task is reported to stderr and the loop continues.  Timing and
the optional `simulate_load` sleep are not modelled; the observable
behaviour kept is the ordered sequence of evaluation results. -/
def execute_serially : List TaskType → List (Except String Unit)
  | [] => []
  | task :: rest => task.run :: execute_serially rest

/-- src/main.rs `compare_durations` report: which run was faster and by
what factor, or equality. -/
inductive CompareReport where
  | concurrent_faster (speedup : ℚ)
  | serial_faster (slowdown : ℚ)
  | equal
  deriving DecidableEq, Repr

/-- src/main.rs `compare_durations(serial, concurrent)`.  A `Duration` is
modelled as its exact length in seconds (a rational: Rust durations are
integer nanoseconds); the `as_secs_f64` ratio is modelled as exact
division. -/
def compare_durations (serial concurrent : ℚ) : CompareReport :=
  if serial > concurrent then .concurrent_faster (serial / concurrent)
  else if concurrent > serial then .serial_faster (concurrent / serial)
  else .equal

/-- State of src/main.rs `execute_concurrently` with `k` worker threads:
the shared `VecDeque` behind the mutex, what each worker has popped (in
its own pop order), and which workers have exited their loop.  Evaluating
a popped task happens outside the critical section and never touches the
queue, so it does not appear in the state. -/
structure PoolState (k : Nat) where
  queue : List TaskType
  popped : Fin k → List TaskType
  finished : Fin k → Bool

/-- Start of `execute_concurrently`: the queue is loaded from the batch
(`VecDeque::from(tasks.to_vec())`), no worker has popped anything, all
workers are in their loop. -/
def PoolState.init (tasks : List TaskType) (k : Nat) : PoolState k :=
  ⟨tasks, fun _ => [], fun _ => false⟩

/-- One interleaved step of the worker pool.  The mutex makes
`pop_front` atomic, so a step is either: a running worker acquires the
lock and pops the front task (`Some` branch), or a running worker sees
the empty queue and leaves its loop (`None` branch, `break`). -/
inductive PoolStep {k : Nat} : PoolState k → PoolState k → Prop where
  | pop (s : PoolState k) (w : Fin k) (t : TaskType) (rest : List TaskType)
      (hw : s.finished w = false) (hq : s.queue = t :: rest) :
      PoolStep s ⟨rest, Function.update s.popped w (s.popped w ++ [t]), s.finished⟩
  | exit (s : PoolState k) (w : Fin k)
      (hw : s.finished w = false) (hq : s.queue = []) :
      PoolStep s ⟨s.queue, s.popped, Function.update s.finished w true⟩

/-- States of a concurrent run: every interleaving of worker steps from
the initial queue. -/
def PoolReachable (tasks : List TaskType) (k : Nat) (s : PoolState k) : Prop :=
  Relation.ReflTransGen PoolStep (PoolState.init tasks k) s

/-- The multiset of tasks popped across all workers of a state. -/
def PoolState.allPopped {k : Nat} (s : PoolState k) : Multiset TaskType :=
  ∑ w : Fin k, (s.popped w : Multiset TaskType)

/-- Invariant of the worker pool: the queue contents plus everything
popped so far is exactly the initial batch, and a worker only exits after
it has seen the queue empty (and the queue never refills). -/
def PoolInv (tasks : List TaskType) {k : Nat} (s : PoolState k) : Prop :=
  (↑s.queue + s.allPopped = (↑tasks : Multiset TaskType)) ∧
    (∀ w, s.finished w = true → s.queue = [])

/-- The variant-specific operand ranges the spec states for generated
tasks (§4.1): the property side of claim C5, to be compared with what
`gen_task` produces. -/
def in_ranges : TaskType → Prop
  | .Compute a b => 1 ≤ a ∧ a < 100 ∧ 1 ≤ b ∧ b < 100
  | .Fibonacci n => 1 ≤ n ∧ n < 30
  | .Divide numerator denominator =>
      1 ≤ numerator ∧ numerator < 100 ∧ 2 ≤ denominator ∧ denominator ≤ 99
  | .Multiply a b => 1 ≤ a ∧ a < 100 ∧ 1 ≤ b ∧ b < 100
  | .Factorial n => n < 20
  | .PrimeCheck n => 1 ≤ n ∧ n < 100
  | .ModuloExponentiation base exponent modulus =>
      2 ≤ base ∧ base < 20 ∧ 2 ≤ exponent ∧ exponent < 10 ∧ 2 ≤ modulus ∧ modulus ≤ 50

/-- Proof helper for `Helpers.fib`: the same accumulator recursion over
unbounded naturals, with no 64-bit wrap. -/
def fibNat : Nat → Nat → Nat → Nat
  | 0, _, c => c
  | n + 1, p, c => fibNat n c (p + c)

/-- Final state of a one-worker, one-task concurrent run, used to
instantiate the drain theorem on a concrete trace. -/
def poolFinalExample : PoolState 1 :=
  ⟨[], Function.update (fun _ => ([] : List TaskType)) 0 ([] ++ [TaskType.Compute 1 2]),
    Function.update (fun _ => false) 0 true⟩

/-- Updating one worker's pop list appends one task to the pooled multiset. -/
lemma allPopped_update {k : Nat} (f : Fin k → List TaskType) (w : Fin k) (t : TaskType) :
    ∑ x : Fin k, ((Function.update f w (f w ++ [t]) x : List TaskType) : Multiset TaskType)
      = (∑ x : Fin k, ((f x : List TaskType) : Multiset TaskType)) + {t} := by
  have h : ∀ x, ((Function.update f w (f w ++ [t]) x : List TaskType) : Multiset TaskType)
      = Function.update (fun y => ((f y : List TaskType) : Multiset TaskType)) w
          ↑(f w ++ [t]) x :=
    fun x => Function.apply_update (fun _ l => ((l : List TaskType) : Multiset TaskType))
      f w (f w ++ [t]) x
  simp only [h]
  rw [Finset.sum_update_of_mem (Finset.mem_univ w)]
  rw [Finset.sum_eq_add_sum_diff_singleton (Finset.mem_univ w)
    (fun x => ((f x : List TaskType) : Multiset TaskType))]
  have h2 : ((f w ++ [t] : List TaskType) : Multiset TaskType) = ↑(f w) + {t} := rfl
  rw [h2]
  abel

/-- The pool invariant holds at the initial state. -/
lemma poolInv_init (tasks : List TaskType) (k : Nat) :
    PoolInv tasks (PoolState.init tasks k) := by
  constructor
  · simp [PoolState.init, PoolState.allPopped]
  · intro w hw
    simp [PoolState.init] at hw

/-- Each interleaved worker step preserves the pool invariant. -/
lemma poolInv_step {tasks : List TaskType} {k : Nat} {s s' : PoolState k}
    (hinv : PoolInv tasks s) (hstep : PoolStep s s') : PoolInv tasks s' := by
  obtain ⟨hsum, hfin⟩ := hinv
  cases hstep with
  | pop w t rest hw hq =>
      constructor
      · show ↑rest + (∑ x : Fin k,
            ((Function.update s.popped w (s.popped w ++ [t]) x : List TaskType) :
              Multiset TaskType)) = (↑tasks : Multiset TaskType)
        rw [allPopped_update]
        have hcons : ((t :: rest : List TaskType) : Multiset TaskType) = {t} + ↑rest := rfl
        rw [← hsum, hq, hcons, PoolState.allPopped]
        abel
      · intro w' hw'
        exfalso
        have : s.queue = [] := hfin w' hw'
        rw [hq] at this
        exact List.cons_ne_nil t rest this
  | exit w hw hq =>
      refine ⟨hsum, ?_⟩
      intro w' _
      exact hq

/-- The pool invariant holds in every reachable state of a concurrent run. -/
lemma poolInv_reachable {tasks : List TaskType} {k : Nat} {s : PoolState k}
    (h : PoolReachable tasks k s) : PoolInv tasks s := by
  induction h with
  | refl => exact poolInv_init tasks k
  | tail _ hstep ih => exact poolInv_step ih hstep


/-- C1: for every batch and every `worker_count >= 1`, when
`execute_concurrently` drains the shared queue with `worker_count`
concurrent workers (any interleaving of the mutex-protected pops), the
multiset of all tasks popped across all workers equals the original batch
exactly once each: no task is popped twice and no task is lost. -/
theorem concurrent_pops_equal_batch
    (tasks : List TaskType) (k : Nat) (hk : 1 ≤ k) (s : PoolState k)
    (hreach : PoolReachable tasks k s) (hfin : ∀ w, s.finished w = true) :
    s.allPopped = (↑tasks : Multiset TaskType) := by
  obtain ⟨hsum, hfq⟩ := poolInv_reachable hreach
  have hq : s.queue = [] := hfq ⟨0, hk⟩ (hfin ⟨0, hk⟩)
  rw [hq] at hsum
  simpa using hsum

/-- Witness for C1: a complete one-worker run over the batch
`[Compute 1 2]` (one pop, then the worker sees the empty queue and
exits) pops exactly the batch. -/
theorem concurrent_pops_equal_batch_witness :
    (1 ≤ 1) ∧ poolFinalExample.allPopped = (↑[TaskType.Compute 1 2] : Multiset TaskType) := by
  refine ⟨le_refl 1, concurrent_pops_equal_batch [TaskType.Compute 1 2] 1 (le_refl 1)
    poolFinalExample ?_ ?_⟩
  · exact Relation.ReflTransGen.tail
      (Relation.ReflTransGen.tail Relation.ReflTransGen.refl
        (PoolStep.pop (PoolState.init [TaskType.Compute 1 2] 1) 0 (TaskType.Compute 1 2)
          [] rfl rfl))
      (PoolStep.exit ⟨[], Function.update (fun _ => ([] : List TaskType)) 0
          ([] ++ [TaskType.Compute 1 2]), fun _ => false⟩ 0 rfl rfl)
  · decide

/-- The sequential runner maps `run` over the batch in order. -/
lemma execute_serially_eq_map (tasks : List TaskType) :
    execute_serially tasks = tasks.map TaskType.run := by
  induction tasks with
  | nil => rfl
  | cons t rest ih => simp [execute_serially, ih]

/-- C6: the sequential runner evaluates every item of the batch, in the
batch's original order (the result list has one entry per item, at the
item's position), and an evaluation error on one item does not stop
evaluation of the remaining items: every later position still holds that
item's evaluation result. -/
theorem execute_serially_runs_all_in_order (tasks : List TaskType) (i : Nat)
    (h : i < tasks.length) :
    (execute_serially tasks).length = tasks.length ∧
      (execute_serially tasks)[i]? = some (tasks.get ⟨i, h⟩).run := by
  rw [execute_serially_eq_map]
  constructor
  · simp
  · simp [List.getElem?_map, List.getElem?_eq_getElem h]

/-- Witness for C6: in the batch `[Divide 5 0, Compute 1 2]` the first
item fails with a division-by-zero error, and the item after it is still
evaluated (position 1 holds its result). -/
theorem execute_serially_runs_all_in_order_witness :
    (1 < [TaskType.Divide 5 0, TaskType.Compute 1 2].length) ∧
      (execute_serially [TaskType.Divide 5 0, TaskType.Compute 1 2]).length =
        [TaskType.Divide 5 0, TaskType.Compute 1 2].length ∧
      (execute_serially [TaskType.Divide 5 0, TaskType.Compute 1 2])[1]? =
        some (([TaskType.Divide 5 0, TaskType.Compute 1 2].get ⟨1, by decide⟩).run) := by
  have h := execute_serially_runs_all_in_order [TaskType.Divide 5 0, TaskType.Compute 1 2]
    1 (by decide)
  exact ⟨by decide, h.1, h.2⟩

/-- The generator loop produces exactly the requested number of tasks,
from any generator state. -/
lemma generate_tasks_from_length (n : Nat) (rng : StdRng) :
    (generate_tasks_from n rng).length = n := by
  induction n generalizing rng with
  | zero => rfl
  | succ n ih => simp [generate_tasks_from, ih]

/-- C2: for every batch size `n` and every seed, calling the task
generator twice with the same `(batch_size, seed)` yields two identical
task sequences (the generator is a pure function of its seeded state),
and the generated sequence has length exactly `n` (also for the source's
fixed seed 42). -/
theorem generate_deterministic_and_length (n seed : Nat) :
    generate n seed = generate n seed ∧ (generate n seed).length = n ∧
      (generate_tasks n).length = n :=
  ⟨rfl, generate_tasks_from_length n _, generate_tasks_from_length n _⟩

/-- Witness for C2 at `n = 3`, `seed = 7`. -/
theorem generate_deterministic_and_length_witness :
    generate 3 7 = generate 3 7 ∧ (generate 3 7).length = 3 ∧
      (generate_tasks 3).length = 3 :=
  generate_deterministic_and_length 3 7

/-- C3: for every numerator `x`, evaluating `Divide {numerator := x,
denominator := 0}` returns the division-by-zero error; evaluating
`Divide {numerator := 10, denominator := 2}` succeeds. -/
theorem divide_by_zero_and_success (x : Int) :
    TaskType.run (.Divide x 0) = .error "Division by zero." ∧
      TaskType.run (.Divide 10 2) = .ok () :=
  ⟨rfl, rfl⟩

/-- Witness for C3 at `x = 7`. -/
theorem divide_by_zero_and_success_witness :
    TaskType.run (.Divide 7 0) = .error "Division by zero." ∧
      TaskType.run (.Divide 10 2) = .ok () :=
  divide_by_zero_and_success 7

/-- C7: evaluating `PrimeCheck {n := 7}` succeeds and classifies 7 as
prime, and evaluating `PrimeCheck {n := 9}` succeeds and classifies 9 as
not prime. -/
theorem prime_check_classification :
    TaskType.run (.PrimeCheck 7) = .ok () ∧ Helpers.prime_check 7 = true ∧
      TaskType.run (.PrimeCheck 9) = .ok () ∧ Helpers.prime_check 9 = false :=
  ⟨rfl, by decide, rfl, by decide⟩

/-- The accumulator recursion satisfies the standard Fibonacci identity
over unbounded naturals. -/
lemma fibNat_spec (n : Nat) : ∀ p c, fibNat n p c = p * Nat.fib n + c * Nat.fib (n + 1) := by
  induction n with
  | zero => intro p c; simp [fibNat]
  | succ n ih =>
      intro p c
      rw [fibNat, ih]
      have h2 : Nat.fib (n + 1 + 1) = Nat.fib n + Nat.fib (n + 1) := Nat.fib_add_two
      rw [h2]
      ring

/-- The wrapping accumulator recursion agrees with the unbounded one
modulo `2 ^ 64`. -/
lemma fib_eq_fibNat_mod (n : Nat) :
    ∀ p c, Helpers.fib n (p % U64) (c % U64) = fibNat n p c % U64 := by
  induction n with
  | zero => intro p c; rfl
  | succ n ih =>
      intro p c
      rw [Helpers.fib, fibNat]
      have h : (p % U64 + c % U64) % U64 = (p + c) % U64 := by
        conv_rhs => rw [Nat.add_mod]
      rw [h]
      exact ih c (p + c)

/-- For `n >= 1`, the source's `fibonacci` computes the `(n+1)`-st
standard Fibonacci number reduced modulo `2 ^ 64`. -/
lemma fibonacci_mod (n : Nat) (h : 1 ≤ n) :
    Helpers.fibonacci n = Nat.fib (n + 1) % U64 := by
  unfold Helpers.fibonacci
  rw [if_neg (by omega)]
  calc Helpers.fib n 0 1 = Helpers.fib n (0 % U64) (1 % U64) := by norm_num [U64]
    _ = fibNat n 0 1 % U64 := fib_eq_fibNat_mod n 0 1
    _ = Nat.fib (n + 1) % U64 := by rw [fibNat_spec]; ring_nf

/-- Counterexample to C10 as stated: at `n = 93` (a valid `u64` input with
`1 <= n`), `fibonacci n` is not the standard Fibonacci number `F(n+1)`,
because `F(94)` exceeds `2 ^ 64 - 1` and the `u64` addition wraps. -/
theorem fibonacci_overflow_counterexample :
    1 ≤ 93 ∧ Helpers.fibonacci 93 ≠ Nat.fib (93 + 1) :=
  ⟨by decide, by decide⟩

/-- C10 (amended): `fibonacci(0) = 0`, and for every `n >= 1` whose result
fits in `u64` (`F(n+1) < 2 ^ 64`), `fibonacci(n)` equals the `(n+1)`-st
standard Fibonacci number `F(n+1)` with `F(0) = 0`, `F(1) = 1` — so
`fibonacci(1) = 1`, `fibonacci(2) = 2`, `fibonacci(7) = 21`, and the
recurrence `fibonacci(n) = fibonacci(n-1) + fibonacci(n-2)` fails at
`n = 2`.  (Beyond the fit bound the `u64` sum wraps modulo `2 ^ 64`.) -/
theorem fibonacci_shifted (n : Nat) (h : 1 ≤ n) (hfit : Nat.fib (n + 1) < U64) :
    Helpers.fibonacci 0 = 0 ∧ Helpers.fibonacci n = Nat.fib (n + 1) ∧
      Helpers.fibonacci 1 = 1 ∧ Helpers.fibonacci 2 = 2 ∧ Helpers.fibonacci 7 = 21 ∧
      Helpers.fibonacci 2 ≠ Helpers.fibonacci 1 + Helpers.fibonacci 0 := by
  refine ⟨rfl, ?_, by decide, by decide, by decide, by decide⟩
  rw [fibonacci_mod n h, Nat.mod_eq_of_lt hfit]

/-- Witness for C10 (amended) at `n = 7`: `fibonacci 7 = F(8) = 21`. -/
theorem fibonacci_shifted_witness :
    (1 ≤ 7) ∧ Nat.fib (7 + 1) < U64 ∧ Helpers.fibonacci 7 = Nat.fib (7 + 1) :=
  ⟨by decide, by decide, (fibonacci_shifted 7 (by decide) (by decide)).2.1⟩

/-- Square-and-multiply invariant for `mod_exp_loop`: as long as the
modulus is at most `2 ^ 32`, the intermediate products stay below
`2 ^ 64`, the wrap never fires, and the loop computes
`result * base ^ exp mod m`. -/
lemma mod_exp_loop_spec (m : Nat) (hm : 2 ≤ m) (hm32 : m ≤ 2 ^ 32) :
    ∀ exp base result, base < m → result < m →
      Helpers.mod_exp_loop m exp base result = result * base ^ exp % m := by
  intro exp
  induction exp using Nat.strong_induction_on with
  | _ exp ih =>
    intro base result hb hr
    rw [Helpers.mod_exp_loop]
    by_cases h0 : exp = 0
    · subst h0
      simp [Nat.mod_eq_of_lt hr]
    · rw [dif_neg h0]
      have hm0 : 0 < m := by omega
      have hmm : m * m ≤ U64 := by
        calc m * m ≤ 2 ^ 32 * 2 ^ 32 := Nat.mul_le_mul hm32 hm32
          _ = U64 := by norm_num [U64]
      have hbb : base * base < U64 := by
        calc base * base ≤ base * m := Nat.mul_le_mul_left base (le_of_lt hb)
          _ < m * m := (Nat.mul_lt_mul_right hm0).mpr hb
          _ ≤ U64 := hmm
      have hrb : result * base < U64 := by
        calc result * base ≤ result * m := Nat.mul_le_mul_left result (le_of_lt hb)
          _ < m * m := (Nat.mul_lt_mul_right hm0).mpr hr
          _ ≤ U64 := hmm
      have he2 : exp / 2 < exp := Nat.div_lt_self (Nat.pos_of_ne_zero h0) (by decide)
      have hbase' : base * base % U64 % m = base * base % m := by
        rw [Nat.mod_eq_of_lt hbb]
      rw [hbase']
      have hsplit : 2 * (exp / 2) + exp % 2 = exp := Nat.div_add_mod exp 2
      by_cases hpar : exp % 2 = 1
      · rw [if_pos hpar]
        rw [Nat.mod_eq_of_lt hrb]
        rw [ih (exp / 2) he2 (base * base % m) (result * base % m)
          (Nat.mod_lt _ hm0) (Nat.mod_lt _ hm0)]
        have hcong : (result * base % m) * (base * base % m) ^ (exp / 2)
            ≡ result * base * (base * base) ^ (exp / 2) [MOD m] :=
          (Nat.mod_modEq (result * base) m).mul ((Nat.mod_modEq (base * base) m).pow (exp / 2))
        have hpow : result * base * (base * base) ^ (exp / 2) = result * base ^ exp := by
          conv_rhs => rw [← hsplit, hpar]
          ring
        calc result * base % m * (base * base % m) ^ (exp / 2) % m
            = result * base * (base * base) ^ (exp / 2) % m := hcong
          _ = result * base ^ exp % m := by rw [hpow]
      · rw [if_neg hpar]
        rw [ih (exp / 2) he2 (base * base % m) result (Nat.mod_lt _ hm0) hr]
        have hpar0 : exp % 2 = 0 := by omega
        have hcong : result * (base * base % m) ^ (exp / 2)
            ≡ result * (base * base) ^ (exp / 2) [MOD m] :=
          (Nat.ModEq.refl result).mul ((Nat.mod_modEq (base * base) m).pow (exp / 2))
        have hpow : result * (base * base) ^ (exp / 2) = result * base ^ exp := by
          conv_rhs => rw [← hsplit, hpar0]
          ring
        calc result * (base * base % m) ^ (exp / 2) % m
            = result * (base * base) ^ (exp / 2) % m := hcong
          _ = result * base ^ exp % m := by rw [hpow]

/-- The helper `mod_exp` computes `base ^ exp mod modulus` whenever
`1 <= modulus <= 2 ^ 32`. -/
lemma mod_exp_eq (base exp modulus : Nat) (h1 : 1 ≤ modulus) (h32 : modulus ≤ 2 ^ 32) :
    Helpers.mod_exp base exp modulus = base ^ exp % modulus := by
  unfold Helpers.mod_exp
  by_cases hm1 : modulus = 1
  · rw [if_pos hm1, hm1, Nat.mod_one]
  · rw [if_neg hm1]
    have hm : 2 ≤ modulus := by omega
    rw [mod_exp_loop_spec modulus hm h32 exp (base % modulus) 1
      (Nat.mod_lt _ (by omega)) (by omega)]
    rw [one_mul, ← Nat.pow_mod]

/-- Counterexample to C4 as stated: the general identity
`mod_exp(base, exp, modulus) = base ^ exp mod modulus` fails for
`modulus >= 1` once the squared base overflows `u64`: at
`base = 2 ^ 32`, `exp = 2`, `modulus = 2 ^ 64 - 1` the code returns `0`
while the true value is `1`. -/
theorem mod_exp_overflow_counterexample :
    1 ≤ 18446744073709551615 ∧
      Helpers.mod_exp 4294967296 2 18446744073709551615 ≠
        4294967296 ^ 2 % 18446744073709551615 := by
  refine ⟨by decide, ?_⟩
  rw [Helpers.mod_exp]
  norm_num
  rw [Helpers.mod_exp_loop]
  norm_num [U64]
  rw [Helpers.mod_exp_loop]
  norm_num
  rw [Helpers.mod_exp_loop]
  norm_num

/-- C4 (amended): evaluating `ModuloExponentiation {2, 3, 0}` returns the
zero-modulus error; evaluating `ModuloExponentiation {2, 3, 5}` succeeds,
with `mod_exp` computing `2 ^ 3 mod 5 = 3`; and in general
`mod_exp(base, exp, modulus) = base ^ exp mod modulus` for every modulus
with `1 <= modulus <= 2 ^ 32` (beyond `2 ^ 32` the `u64` squaring can
wrap and the identity fails). -/
theorem mod_exp_correct (base exp modulus : Nat) (h1 : 1 ≤ modulus)
    (h32 : modulus ≤ 2 ^ 32) :
    TaskType.run (.ModuloExponentiation 2 3 0) = .error "Modulus cannot be zero." ∧
      TaskType.run (.ModuloExponentiation 2 3 5) = .ok () ∧
      Helpers.mod_exp 2 3 5 = 3 ∧
      Helpers.mod_exp base exp modulus = base ^ exp % modulus := by
  refine ⟨rfl, rfl, ?_, mod_exp_eq base exp modulus h1 h32⟩
  rw [mod_exp_eq 2 3 5 (by norm_num) (by norm_num)]
  decide

/-- Witness for C4 (amended) at `base = 2`, `exp = 3`, `modulus = 5`. -/
theorem mod_exp_correct_witness :
    (1 ≤ 5) ∧ (5 ≤ 2 ^ 32) ∧ Helpers.mod_exp 2 3 5 = 2 ^ 3 % 5 :=
  ⟨by decide, by norm_num, (mod_exp_correct 2 3 5 (by decide) (by norm_num)).2.2.2⟩

/-- The product of `1..=n` is `n!`. -/
lemma range'_prod_factorial (n : Nat) :
    (List.range' 1 n).prod = Nat.factorial n := by
  induction n with
  | zero => rfl
  | succ n ih =>
      rw [List.range'_1_concat, List.prod_append, ih]
      simp [Nat.factorial_succ]
      ring

/-- As long as the running product stays below `2 ^ 64`, the wrapping
fold computes the plain product. -/
lemma foldl_mul_wrap (l : List Nat) :
    ∀ a, (∀ i ∈ l, 1 ≤ i) → a * l.prod < U64 →
      l.foldl (fun acc i => acc * i % U64) a = a * l.prod := by
  induction l with
  | nil => intro a _ _; simp
  | cons i l ih =>
      intro a hpos hfit
      have hi : 1 ≤ i := hpos i (List.mem_cons_self i l)
      have hlprod : 1 ≤ l.prod :=
        Nat.one_le_iff_ne_zero.mpr (Nat.pos_iff_ne_zero.mp (List.prod_pos
          (fun j hj => hpos j (List.mem_cons_of_mem i hj))))
      have hprod_cons : (i :: l).prod = i * l.prod := List.prod_cons
      have hfit' : a * i * l.prod < U64 := by
        rw [mul_assoc, ← hprod_cons]
        exact hfit
      have hai : a * i < U64 := by
        have : a * i ≤ a * i * l.prod := Nat.le_mul_of_pos_right _ (by omega)
        omega
      rw [List.foldl_cons]
      rw [show a * i % U64 = a * i from Nat.mod_eq_of_lt hai]
      rw [ih (a * i) (fun j hj => hpos j (List.mem_cons_of_mem i hj)) hfit']
      rw [hprod_cons]
      ring

/-- C8: evaluating `Factorial {0}` succeeds with `factorial(0) = 1`, and
evaluating `Factorial {5}` succeeds with `factorial(5) = 120`; the
factorial helper returns `n!` for every `n` for which `n!` fits in the
native unsigned width (`n! < 2 ^ 64`). -/
theorem factorial_correct (n : Nat) (hfit : Nat.factorial n < U64) :
    TaskType.run (.Factorial 0) = .ok () ∧ TaskType.run (.Factorial 5) = .ok () ∧
      Helpers.factorial 0 = 1 ∧ Helpers.factorial 5 = 120 ∧
      Helpers.factorial n = Nat.factorial n := by
  refine ⟨rfl, rfl, rfl, by decide, ?_⟩
  unfold Helpers.factorial
  by_cases h0 : n = 0
  · subst h0; rfl
  · rw [if_neg h0]
    have hmem : ∀ i ∈ List.range' 1 n, 1 ≤ i := by
      intro i hi
      exact (List.mem_range'_1.mp hi).1
    have hfit' : 1 * (List.range' 1 n).prod < U64 := by
      rw [one_mul, range'_prod_factorial]
      exact hfit
    rw [foldl_mul_wrap _ 1 hmem hfit', one_mul, range'_prod_factorial]

/-- Witness for C8 at `n = 5`: `5! = 120` fits in `u64`. -/
theorem factorial_correct_witness :
    Nat.factorial 5 < U64 ∧ Helpers.factorial 5 = Nat.factorial 5 :=
  ⟨by decide, (factorial_correct 5 (by decide)).2.2.2.2⟩

/-- The draw `gen_range lo hi` never returns less than `lo`. -/
lemma gen_range_fst_ge (r : StdRng) (lo hi : Nat) : lo ≤ (r.gen_range lo hi).1 :=
  Nat.le_add_right lo _

/-- The draw `gen_range lo hi` stays below `hi` whenever `lo < hi`. -/
lemma gen_range_fst_lt (r : StdRng) (lo hi : Nat) (h : lo < hi) :
    (r.gen_range lo hi).1 < hi := by
  show lo + r.next_u64.1 % (hi - lo) < hi
  have hpos : 0 < hi - lo := by omega
  have := Nat.mod_lt r.next_u64.1 hpos
  omega

/-- Every arm of the generator match produces operands inside the
variant-specific ranges. -/
lemma gen_task_sel_in_ranges (sel : Nat) (rng : StdRng) (h7 : sel < 7) :
    in_ranges (gen_task_sel sel rng).1 := by
  rw [gen_task_sel]
  by_cases h0 : sel = 0
  · rw [if_pos h0]
    have a1 := gen_range_fst_ge rng 1 100
    have a2 := gen_range_fst_lt rng 1 100 (by decide)
    have b1 := gen_range_fst_ge (rng.gen_range 1 100).2 1 100
    have b2 := gen_range_fst_lt (rng.gen_range 1 100).2 1 100 (by decide)
    exact ⟨by omega, by omega, by omega, by omega⟩
  rw [if_neg h0]
  by_cases h1 : sel = 1
  · rw [if_pos h1]
    have a1 := gen_range_fst_ge rng 1 30
    have a2 := gen_range_fst_lt rng 1 30 (by decide)
    exact ⟨a1, a2⟩
  rw [if_neg h1]
  by_cases h2 : sel = 2
  · rw [if_pos h2]
    have a1 := gen_range_fst_ge rng 1 100
    have a2 := gen_range_fst_lt rng 1 100 (by decide)
    have b1 := gen_range_fst_ge (rng.gen_range 1 100).2 1 99
    have b2 := gen_range_fst_lt (rng.gen_range 1 100).2 1 99 (by decide)
    exact ⟨by omega, by omega, by omega, by omega⟩
  rw [if_neg h2]
  by_cases h3 : sel = 3
  · rw [if_pos h3]
    have a1 := gen_range_fst_ge rng 1 100
    have a2 := gen_range_fst_lt rng 1 100 (by decide)
    have b1 := gen_range_fst_ge (rng.gen_range 1 100).2 1 100
    have b2 := gen_range_fst_lt (rng.gen_range 1 100).2 1 100 (by decide)
    exact ⟨by omega, by omega, by omega, by omega⟩
  rw [if_neg h3]
  by_cases h4 : sel = 4
  · rw [if_pos h4]
    exact gen_range_fst_lt rng 0 20 (by decide)
  rw [if_neg h4]
  by_cases h5 : sel = 5
  · rw [if_pos h5]
    have a1 := gen_range_fst_ge rng 1 100
    have a2 := gen_range_fst_lt rng 1 100 (by decide)
    exact ⟨a1, a2⟩
  rw [if_neg h5]
  by_cases h6 : sel = 6
  · rw [if_pos h6]
    have a1 := gen_range_fst_ge rng 2 20
    have a2 := gen_range_fst_lt rng 2 20 (by decide)
    have b1 := gen_range_fst_ge (rng.gen_range 2 20).2 2 10
    have b2 := gen_range_fst_lt (rng.gen_range 2 20).2 2 10 (by decide)
    have c1 := gen_range_fst_ge ((rng.gen_range 2 20).2.gen_range 2 10).2 1 50
    have c2 := gen_range_fst_lt ((rng.gen_range 2 20).2.gen_range 2 10).2 1 50 (by decide)
    exact ⟨by omega, by omega, by omega, by omega, by omega, by omega⟩
  rw [if_neg h6]
  exact absurd h7 (by omega)

/-- Every generated task has its operands inside the ranges. -/
lemma gen_task_in_ranges (rng0 : StdRng) : in_ranges (gen_task rng0).1 := by
  have h7 : (rng0.gen_range 0 7).1 < 7 := gen_range_fst_lt rng0 0 7 (by decide)
  rw [gen_task]
  generalize (rng0.gen_range 0 7).1 = sel at h7 ⊢
  exact gen_task_sel_in_ranges sel (rng0.gen_range 0 7).2 h7

/-- A task whose operands are inside the generation ranges evaluates
successfully: the two error guards (`denominator = 0`, `modulus = 0`)
cannot fire. -/
lemma run_ok_of_in_ranges (t : TaskType) (h : in_ranges t) : t.run = .ok () := by
  cases t with
  | Divide numerator denominator =>
      obtain ⟨-, -, h2, -⟩ := h
      rw [TaskType.run]
      rw [if_neg (by omega)]
  | ModuloExponentiation base exponent modulus =>
      obtain ⟨-, -, -, -, h2, -⟩ := h
      rw [TaskType.run]
      rw [if_neg (by omega)]
  | Compute a b => rfl
  | Fibonacci n => rfl
  | Multiply a b => rfl
  | Factorial n => rfl
  | PrimeCheck n => rfl

/-- C5: every task produced by the generator (from any generator state,
so in particular for the source's seed 42 and for every batch size) has
operands inside the variant-specific ranges — Compute/Multiply operands
in `[1,100)`, Fibonacci `n` in `[1,30)`, Factorial `n` in `[0,20)`,
PrimeCheck `n` in `[1,100)`, Divide numerator in `[1,100)` and
denominator in `[2,99]`, ModuloExponentiation base in `[2,20)`, exponent
in `[2,10)`, modulus in `[2,50]` — so a generated Divide never has
denominator 0, a generated ModuloExponentiation never has modulus 0, and
every generated task evaluates successfully. -/
theorem generated_tasks_in_ranges (n : Nat) (rng : StdRng) (t : TaskType)
    (h : t ∈ generate_tasks_from n rng) :
    in_ranges t ∧ t.run = .ok () := by
  induction n generalizing rng with
  | zero => cases h
  | succ n ih =>
      rw [generate_tasks_from] at h
      rcases List.mem_cons.mp h with h1 | h2
      · subst h1
        exact ⟨gen_task_in_ranges rng, run_ok_of_in_ranges _ (gen_task_in_ranges rng)⟩
      · exact ih (gen_task rng).2 h2

/-- Witness for C5: the first task generated from the source's seed 42 is
`Compute 99 57`; it is in range and evaluates successfully. -/
theorem generated_tasks_in_ranges_witness :
    TaskType.Compute 99 57 ∈ generate_tasks 1 ∧ in_ranges (TaskType.Compute 99 57) ∧
      (TaskType.Compute 99 57).run = .ok () := by
  have hm : TaskType.Compute 99 57 ∈ generate_tasks 1 := by
    with_unfolding_all decide
  exact ⟨hm, generated_tasks_in_ranges 1 (StdRng.seed_from_u64 42) _ hm⟩

/-- C9: the comparator, given the two measured durations, reports which
duration is smaller together with the multiplicative factor
larger/smaller (e.g. serial 100 ms versus concurrent 50 ms is reported
as concurrent faster by 2.00x), and reports equality exactly when the
two durations are identical. -/
theorem compare_durations_correct (serial concurrent : ℚ) :
    (concurrent < serial →
        compare_durations serial concurrent = .concurrent_faster (serial / concurrent)) ∧
      (serial < concurrent →
        compare_durations serial concurrent = .serial_faster (concurrent / serial)) ∧
      (compare_durations serial concurrent = .equal ↔ serial = concurrent) ∧
      compare_durations (1 / 10) (1 / 20) = .concurrent_faster 2 := by
  refine ⟨?_, ?_, ⟨?_, ?_⟩, ?_⟩
  · intro h
    rw [compare_durations, if_pos h]
  · intro h
    rw [compare_durations, if_neg (not_lt_of_gt h), if_pos h]
  · intro h
    rw [compare_durations] at h
    by_cases h1 : serial > concurrent
    · rw [if_pos h1] at h
      exact absurd h (by simp)
    · rw [if_neg h1] at h
      by_cases h2 : concurrent > serial
      · rw [if_pos h2] at h
        exact absurd h (by simp)
      · push_neg at h1 h2
        exact le_antisymm h1 h2
  · intro h
    subst h
    rw [compare_durations, if_neg (lt_irrefl serial), if_neg (lt_irrefl serial)]
  · rw [compare_durations, if_pos (by norm_num)]
    norm_num

/-- Witness for C9: serial 100 ms (1/10 s) versus concurrent 50 ms
(1/20 s) is reported as concurrent faster by factor 2. -/
theorem compare_durations_correct_witness :
    ((1 : ℚ) / 20 < 1 / 10) ∧
      compare_durations (1 / 10) (1 / 20) = .concurrent_faster ((1 / 10) / (1 / 20)) :=
  ⟨by norm_num, (compare_durations_correct (1 / 10) (1 / 20)).1 (by norm_num)⟩
